import Mathlib

/-!
Verification development for the FractionalSuite repository
(`deals/models.py`, `deals/views.py`).

Monetary values (`DecimalField` with two decimal places) are embedded as
exact rationals (`ℚ`); dates and datetimes as natural-number timestamps
(only their order matters to the code); database tables as lists of
records.  Python's `Decimal.quantize(Decimal('0.00'))` rounds with the
default context mode `ROUND_HALF_EVEN`, embedded below as `quantize2`.
The one floating-point path (`Deal.percentage_sold`) is embedded
exactly: each float operation is modelled by correctly rounding the
exact rational to IEEE binary64 (`roundB64`), and Python's
`round(x, 2)` by the 2-decimal ties-to-even rounding of the double's
exact value.
-/

namespace FractionalSuite

/-- Round a rational to the nearest integer, ties to even: the embedding
of Python decimal rounding under the default `ROUND_HALF_EVEN` mode. -/
def roundHalfEven (t : ℚ) : ℤ :=
  if t - ⌊t⌋ < 1/2 then ⌊t⌋
  else if 1/2 < t - ⌊t⌋ then ⌊t⌋ + 1
  else if ⌊t⌋ % 2 = 0 then ⌊t⌋ else ⌊t⌋ + 1

/-- `x.quantize(Decimal('0.00'))`: round to two decimal places,
ties to even (the default decimal context of the source). -/
def quantize2 (q : ℚ) : ℚ := (roundHalfEven (q * 100) : ℚ) / 100

/-- The IEEE binary64 (double) value nearest a rational, as an exact
rational: 53-bit significand, round to nearest, ties to even (scaling by
a power of two is exact, so rounding the scaled significand with
`roundHalfEven` is the IEEE rounding).  Overflow and subnormal underflow
lie far outside the magnitudes this application computes and are not
modelled.  `float(n)` is exact for every integer a
`PositiveIntegerField` can store, so integer operands need no separate
conversion step. -/
def roundB64 (q : ℚ) : ℚ :=
  if q = 0 then 0
  else if 0 < q then
    (roundHalfEven (q * 2 ^ (52 - Int.log 2 q)) : ℚ) / 2 ^ (52 - Int.log 2 q)
  else
    -((roundHalfEven (-q * 2 ^ (52 - Int.log 2 (-q))) : ℚ) / 2 ^ (52 - Int.log 2 (-q)))

/-- `roundHalfUp2Spec` is NOT part of the source: it renders the spec's
words "rounded half-up to 2 decimals" (a tie in the third decimal place
rounds away from zero), for comparison against the source's `quantize2`. -/
def roundHalfUp2Spec (q : ℚ) : ℚ :=
  if 0 ≤ q then (⌊q * 100 + 1/2⌋ : ℚ) / 100
  else -((⌊-(q * 100) + 1/2⌋ : ℚ) / 100)

/-! ## Data model (`deals/models.py`) -/

/-- `Valuation`: admin-set point-in-time value of a deal
(`models.py`, class `Valuation`). -/
structure Valuation where
  valuation_date : ℕ
  total_valuation : ℚ
  valuation_method : String
deriving Repr, DecidableEq

/-- `Transaction.TRANSACTION_TYPES` (`models.py`). -/
inductive TransactionType where
  | INCOME
  | EXPENSE
  | DISTRIBUTION
deriving Repr, DecidableEq

/-- `Transaction`: one cash-flow event against a deal's ledger
(`models.py`, class `Transaction`).  `deal` is the foreign key. -/
structure Transaction where
  deal : ℕ
  transaction_date : ℕ
  transaction_type : TransactionType
  amount : ℚ
  description : String
deriving Repr, DecidableEq

/-- One row of the `Holding` related set of a deal: shares and
cost basis of one investor (`models.py`, class `Holding`). -/
structure Holding where
  investor : ℕ
  shares_held : ℕ
  total_cost_basis : ℚ
deriving Repr, DecidableEq

/-- `Deal` (`models.py`, class `Deal`) with its related sets
(`valuations`, `transactions`, `holdings`) inlined. -/
structure Deal where
  target_raise_amount : ℚ
  total_shares_offered : ℕ
  valuations : List Valuation
  transactions : List Transaction
  holdings : List Holding
deriving Repr, DecidableEq

/-- `self.valuations.first()` under `Meta.ordering = ['-valuation_date']`:
the valuation with the greatest `valuation_date` (dates are unique per
deal by `unique_together`), `none` when the related set is empty. -/
def latestValuation : List Valuation → Option Valuation
  | [] => none
  | v :: vs =>
      some (vs.foldl (fun acc w =>
        if acc.valuation_date < w.valuation_date then w else acc) v)

/-- The `Case`/`When` expression in `calculate_current_share_value`:
INCOME contributes `amount`, EXPENSE contributes `-amount`,
anything else (DISTRIBUTION) contributes the default `Decimal(0)`. -/
def cashFlowContribution (t : Transaction) : ℚ :=
  match t.transaction_type with
  | .INCOME => t.amount
  | .EXPENSE => -t.amount
  | .DISTRIBUTION => 0

/-- `self.transactions.filter(transaction_date__gt=d).aggregate(Sum(Case(...)))
['total'] or Decimal(0)`: net cash flow strictly after a date. -/
def netCashFlowSince (d : ℕ) (ts : List Transaction) : ℚ :=
  ((ts.filter (fun t => d < t.transaction_date)).map cashFlowContribution).sum

/-- `Deal.price_per_share` (`models.py`): guarded by Python truthiness of
`total_shares_offered` and `target_raise_amount`, else `Decimal(0)`. -/
def Deal.price_per_share (d : Deal) : ℚ :=
  if d.total_shares_offered ≠ 0 ∧ d.target_raise_amount ≠ 0 then
    quantize2 (d.target_raise_amount / (d.total_shares_offered : ℚ))
  else 0

/-- `Deal.calculate_current_share_value` (`models.py`). -/
def Deal.calculate_current_share_value (d : Deal) : ℚ :=
  match latestValuation d.valuations with
  | none => d.price_per_share
  | some latest =>
      let net_cash_flow := netCashFlowSince latest.valuation_date d.transactions
      let current_nav := latest.total_valuation + net_cash_flow
      if d.total_shares_offered = 0 then 0
      else quantize2 (current_nav / (d.total_shares_offered : ℚ))

/-- `Deal.total_shares_sold` (`models.py`): sum of `shares_held`
over the deal's holdings, `0` when there are none. -/
def Deal.total_shares_sold (d : Deal) : ℕ :=
  (d.holdings.map (·.shares_held)).sum

/-- `Deal.percentage_sold` (`models.py`): `0` when no shares are offered,
else `round(float(sold) / float(offered) * 100, 2)`.  The float path is
embedded exactly: `float(sold)` and `float(offered)` are exact, the
division and the multiplication by 100 are each correctly rounded to
binary64 (`roundB64`), and Python's `round(x, 2)` surfaces the 2-decimal
ties-to-even rounding (`quantize2`) of the double's exact value. -/
def Deal.percentage_sold (d : Deal) : ℚ :=
  if d.total_shares_offered = 0 then 0
  else quantize2 (roundB64 (roundB64
    ((d.total_shares_sold : ℚ) / (d.total_shares_offered : ℚ)) * 100))

/-! ## Catalog, POS cart and checkout (`deals/views.py`, `pos_view`) -/

/-- `Variant` (`models.py`): a priced SKU; `itemName` is the parent
`Item`'s name (used for the cart display name). -/
structure Variant where
  id : ℕ
  itemName : String
  name : String
  price : ℚ
deriving Repr, DecidableEq

/-- One value of the session cart dictionary:
`{'name': ..., 'price': ..., 'quantity': ...}`. -/
structure CartEntry where
  name : String
  price : ℚ
  quantity : ℕ
deriving Repr, DecidableEq

/-- The session cart: an insertion-ordered dictionary keyed by variant id
(Python dict with string keys), embedded as an association list. -/
abbrev Cart := List (ℕ × CartEntry)

/-- Dictionary lookup `cart[str(variant_id)]`. -/
def cartLookup (cart : Cart) (vid : ℕ) : Option CartEntry :=
  (cart.find? (fun p => p.1 == vid)).map (·.2)

/-- The `add_to_cart` branch of `pos_view`: increment the quantity when
the variant id is already a key, else insert a fresh entry with
quantity 1 and the variant's current price. -/
def addToCart (cart : Cart) (v : Variant) : Cart :=
  if cart.any (fun p => p.1 == v.id) then
    cart.map (fun p =>
      if p.1 == v.id then (p.1, { p.2 with quantity := p.2.quantity + 1 }) else p)
  else
    cart ++ [(v.id,
      { name := v.itemName ++ " (" ++ v.name ++ ")"
        price := v.price
        quantity := 1 })]

/-- The `remove_from_cart` branch of `pos_view`: `cart.pop(str(variant_id))`,
a no-op when the key is absent. -/
def removeFromCart (cart : Cart) (vid : ℕ) : Cart :=
  cart.filter (fun p => p.1 != vid)

/-- `Sale` (`models.py`): one checkout event.  `cashier` is the username. -/
structure Sale where
  id : ℕ
  deal : ℕ
  cashier : String
  customer_name : String
  total_amount : ℚ
  created_at : ℕ
deriving Repr, DecidableEq

/-- `SaleItem` (`models.py`): one line of a sale. -/
structure SaleItem where
  sale : ℕ
  variant : ℕ
  quantity : ℕ
  price_at_sale : ℚ
deriving Repr, DecidableEq

/-- `SaleItem.total_price` (`models.py`). -/
def SaleItem.total_price (si : SaleItem) : ℚ :=
  (si.quantity : ℚ) * si.price_at_sale

/-- The persistent store touched by the POS flow: the `Sale`, `SaleItem`,
`Transaction` and `Variant` tables. -/
structure Store where
  sales : List Sale
  saleItems : List SaleItem
  transactions : List Transaction
  variants : List Variant
deriving Repr, DecidableEq

/-- `self.items.all()` for a sale: its related `SaleItem` rows. -/
def Store.itemsOf (st : Store) (saleId : ℕ) : List SaleItem :=
  st.saleItems.filter (fun si => si.sale == saleId)

/-- `Sale.finalize_and_create_transaction` (`models.py`): sum
`item.total_price` over the sale's items, save it as `total_amount`,
and append one INCOME `Transaction` dated `created_at`.  Returns the
updated store together with the updated sale object. -/
def finalize_and_create_transaction (st : Store) (s : Sale) : Store × Sale :=
  let total := ((st.itemsOf s.id).map SaleItem.total_price).sum
  let s2 := { s with total_amount := total }
  let tx : Transaction :=
    { deal := s.deal
      transaction_date := s.created_at
      transaction_type := .INCOME
      amount := total
      description := "POS Sale #" ++ toString s.id ++ " (Cashier: " ++ s.cashier ++ ")" }
  ({ st with
      sales := st.sales.map (fun x => if x.id == s.id then s2 else x)
      transactions := st.transactions ++ [tx] },
   s2)

/-- Outcome of the `checkout` branch of `pos_view`.  Each constructor
carries the persisted store at the moment the branch ends: the source
wraps none of the writes in a database transaction, so on a failure
(`variantNotFound`, i.e. `get_object_or_404(Variant, ...)` raising
mid-loop) the rows already created stay persisted. -/
inductive CheckoutResult where
  | ok (st : Store) (cart : Cart) (saleId : ℕ)
  | emptyCart (st : Store)
  | variantNotFound (st : Store) (missing : ℕ)
deriving Repr, DecidableEq

/-- The `SaleItem.objects.create` loop of the checkout branch: each line
looks up its `Variant` (`get_object_or_404`) and persists a `SaleItem`
with the cart's snapshotted price and accumulated quantity.  A missing
variant aborts the loop, keeping every row written so far. -/
def createSaleItems (st : Store) (saleId : ℕ) : Cart → Except (Store × ℕ) Store
  | [] => .ok st
  | (vid, e) :: rest =>
      if st.variants.any (fun v => v.id == vid) then
        createSaleItems
          { st with saleItems :=
              st.saleItems ++ [{ sale := saleId, variant := vid,
                                 quantity := e.quantity, price_at_sale := e.price }] }
          saleId rest
      else .error (st, vid)

/-- The `checkout` branch of `pos_view`: reject an empty cart (error
message, nothing written), else create the `Sale` (auto-assigned primary
key `freshId`, `total_amount` 0, `created_at = now`), create the
`SaleItem` rows, finalize, and clear the cart. -/
def checkout (st : Store) (cart : Cart) (dealId : ℕ)
    (cashier customer : String) (now freshId : ℕ) : CheckoutResult :=
  if cart.isEmpty then .emptyCart st
  else
    let sale : Sale :=
      { id := freshId, deal := dealId, cashier := cashier,
        customer_name := customer, total_amount := 0, created_at := now }
    let st1 := { st with sales := st.sales ++ [sale] }
    match createSaleItems st1 freshId cart with
    | .error (st2, vid) => .variantNotFound st2 vid
    | .ok st2 =>
        let r := finalize_and_create_transaction st2 sale
        .ok r.1 [] sale.id

/-! ## Holding upsert (`deals/views.py`, `deal_detail` POST branch) -/

/-- One row of the `Holding` table with its foreign keys
(`models.py`, class `Holding`; `unique_together = (investor, deal)`). -/
structure HoldingRow where
  investor : ℕ
  deal : ℕ
  shares_held : ℕ
  total_cost_basis : ℚ
deriving Repr, DecidableEq

/-- The rows of the holding table for one `(investor, deal)` key. -/
def holdingsFor (hs : List HoldingRow) (inv dealId : ℕ) : List HoldingRow :=
  hs.filter (fun h => h.investor == inv && h.deal == dealId)

/-- The POST branch of `deal_detail`: price the new shares at
`deal.price_per_share`, then `Holding.objects.get_or_create` on
`(investor, deal)`; when the row already exists, add the shares and the
cost-basis delta to it. -/
def subscribe (hs : List HoldingRow) (inv dealId : ℕ) (d : Deal)
    (new_shares : ℕ) : List HoldingRow :=
  let new_cost_basis := (new_shares : ℚ) * d.price_per_share
  if hs.any (fun h => h.investor == inv && h.deal == dealId) then
    hs.map (fun h =>
      if h.investor == inv && h.deal == dealId then
        { h with shares_held := h.shares_held + new_shares,
                 total_cost_basis := h.total_cost_basis + new_cost_basis }
      else h)
  else
    hs ++ [{ investor := inv, deal := dealId,
             shares_held := new_shares, total_cost_basis := new_cost_basis }]

/-! ## Concrete instances used by witnesses and counterexamples -/

/-- The spec's worked NAV example: 10,000 shares, a valuation of
1,000,000 on day 1, an INCOME transaction of 50,000 on day 2. -/
def dealExample : Deal :=
  { target_raise_amount := 1000000
    total_shares_offered := 10000
    valuations := [{ valuation_date := 1, total_valuation := 1000000,
                     valuation_method := "Annual Appraisal" }]
    transactions := [{ deal := 1, transaction_date := 2,
                       transaction_type := .INCOME, amount := 50000,
                       description := "rent" }]
    holdings := [] }

/-- A deal offering zero shares, with a valuation, a transaction and a
holding on file. -/
def dealZeroShares : Deal :=
  { target_raise_amount := 500000
    total_shares_offered := 0
    valuations := [{ valuation_date := 1, total_valuation := 750000,
                     valuation_method := "Appraisal" }]
    transactions := [{ deal := 1, transaction_date := 2,
                       transaction_type := .EXPENSE, amount := 100,
                       description := "fees" }]
    holdings := [{ investor := 1, shares_held := 10, total_cost_basis := 100 }] }

/-- A deal whose offering-price quotient is exactly 0.125:
1.25 raised over 10 shares. -/
def dealTieQuotient : Deal :=
  { target_raise_amount := 5/4
    total_shares_offered := 10
    valuations := []
    transactions := []
    holdings := [] }

/-- Like `dealTieQuotient` but with a valuation of 1.25 on day 1, so the
NAV quotient is also exactly 0.125. -/
def dealTieQuotientValued : Deal :=
  { target_raise_amount := 5/4
    total_shares_offered := 10
    valuations := [{ valuation_date := 1, total_valuation := 5/4,
                     valuation_method := "Appraisal" }]
    transactions := []
    holdings := [] }

/-- A deal with 10,000 shares, no valuations, and one transaction. -/
def dealNoValuation : Deal :=
  { target_raise_amount := 1000000
    total_shares_offered := 10000
    valuations := []
    transactions := [{ deal := 1, transaction_date := 1,
                       transaction_type := .INCOME, amount := 5,
                       description := "sale" }]
    holdings := [] }

/-- A deal priced at 50 per share (5,000 raised over 100 shares). -/
def dealFifty : Deal :=
  { target_raise_amount := 5000
    total_shares_offered := 100
    valuations := []
    transactions := []
    holdings := [] }

/-- The spec's Sale Finalizer example sale. -/
def saleExample : Sale :=
  { id := 1, deal := 7, cashier := "cash1", customer_name := "Walk-in",
    total_amount := 0, created_at := 3 }

/-- A store holding `saleExample` and its two line items:
150.00 × 2 and 75.50 × 1. -/
def storeExample : Store :=
  { sales := [saleExample]
    saleItems :=
      [{ sale := 1, variant := 11, quantity := 2, price_at_sale := 150 },
       { sale := 1, variant := 12, quantity := 1, price_at_sale := 151/2 }]
    transactions := []
    variants := [] }

/-- An empty store: no sales, items, transactions or variants. -/
def storeEmpty : Store :=
  { sales := [], saleItems := [], transactions := [], variants := [] }

/-- A cart with one line whose variant id (5) exists in no store. -/
def cartDangling : Cart :=
  [(5, { name := "Gel (Regular)", price := 150, quantity := 1 })]

/-- A variant priced at 10. -/
def variantBefore : Variant :=
  { id := 1, itemName := "Polish", name := "Regular", price := 10 }

/-- The same variant after its catalog price was raised to 20. -/
def variantAfter : Variant :=
  { id := 1, itemName := "Polish", name := "Regular", price := 20 }

/-- A deal with 107 of 4000 shares sold: the exact percentage is 2.675,
a third-decimal tie. -/
def dealPercent : Deal :=
  { target_raise_amount := 1000000
    total_shares_offered := 4000
    valuations := []
    transactions := []
    holdings := [{ investor := 1, shares_held := 107, total_cost_basis := 0 }] }

/-! ## Shared lemmas -/

/-- `roundHalfEven` returns a nearest integer, and on a tie an even one. -/
theorem roundHalfEven_nearest (t : ℚ) :
    |t - (roundHalfEven t : ℚ)| ≤ 1/2 ∧
      (|t - (roundHalfEven t : ℚ)| = 1/2 → 2 ∣ roundHalfEven t) := by
  have h0 : ((⌊t⌋ : ℤ) : ℚ) ≤ t := Int.floor_le t
  have h1 : t < (⌊t⌋ : ℚ) + 1 := Int.lt_floor_add_one t
  unfold roundHalfEven
  by_cases hlt : t - (⌊t⌋ : ℚ) < 1/2
  · rw [if_pos hlt]
    refine ⟨?_, ?_⟩
    · rw [abs_of_nonneg (by linarith)]; linarith
    · intro habs; rw [abs_of_nonneg (by linarith)] at habs; linarith
  · rw [if_neg hlt]
    by_cases hgt : 1/2 < t - (⌊t⌋ : ℚ)
    · rw [if_pos hgt]
      push_cast
      refine ⟨?_, ?_⟩
      · rw [abs_of_nonpos (by linarith)]; linarith
      · intro habs; rw [abs_of_nonpos (by linarith)] at habs; linarith
    · have heq : t - (⌊t⌋ : ℚ) = 1/2 := le_antisymm (not_lt.mp hgt) (not_lt.mp hlt)
      rw [if_neg hgt]
      by_cases hm : ⌊t⌋ % 2 = 0
      · rw [if_pos hm]
        refine ⟨?_, ?_⟩
        · rw [abs_of_nonneg (by linarith)]; linarith
        · intro _; omega
      · rw [if_neg hm]
        push_cast
        refine ⟨?_, ?_⟩
        · rw [abs_of_nonpos (by linarith)]; linarith
        · intro _; omega

/-- `Int.log 2` of a rational bracketed between consecutive powers
of two. -/
theorem int_log_two_eq (q : ℚ) (e : ℤ) (h0 : 0 < q)
    (h1 : ((2 : ℕ) : ℚ) ^ e ≤ q) (h2 : q < ((2 : ℕ) : ℚ) ^ (e + 1)) :
    Int.log 2 q = e :=
  le_antisymm
    (by have := (Int.lt_zpow_iff_log_lt (by norm_num) h0).mp h2; omega)
    ((Int.zpow_le_iff_le_log (by norm_num) h0).mp h1)

/-- Filtering commutes with a map that does not change the predicate. -/
theorem filter_map_of_pred_inv {α : Type} (p : α → Bool) (f : α → α)
    (hf : ∀ x, p (f x) = p x) :
    ∀ l : List α, (l.map f).filter p = (l.filter p).map f := by
  intro l
  induction l with
  | nil => rfl
  | cons a l ih =>
      simp only [List.map_cons, List.filter_cons, hf a]
      cases hpa : p a <;> simp [ih]

/-- `find?` commutes with a map that does not change the predicate. -/
theorem find_map_of_pred_inv {α : Type} (p : α → Bool) (f : α → α)
    (hf : ∀ x, p (f x) = p x) :
    ∀ l : List α, (l.map f).find? p = (l.find? p).map f := by
  intro l
  induction l with
  | nil => rfl
  | cons a l ih =>
      simp only [List.map_cons, List.find?_cons, hf a]
      cases hpa : p a <;> simp [ih]

/-! ## Claim theorems -/

/-- C1: for every Deal with `total_shares_offered > 0` that has at least
one Valuation, `calculate_current_share_value` returns
`(latest_valuation.total_valuation + net_cash_flow) / total_shares_offered`
rounded to 2 decimal places, where `net_cash_flow` sums exactly the
Transactions strictly after the latest `valuation_date`, INCOME counting
`+amount`, EXPENSE counting `-amount`, DISTRIBUTION counting 0. -/
theorem C1_nav_with_valuation (d : Deal) (v : Valuation)
    (hshares : 0 < d.total_shares_offered)
    (hval : latestValuation d.valuations = some v) :
    d.calculate_current_share_value =
      quantize2 ((v.total_valuation +
        ((d.transactions.filter
            (fun t => v.valuation_date < t.transaction_date)).map
          (fun t => match t.transaction_type with
            | .INCOME => t.amount
            | .EXPENSE => -t.amount
            | .DISTRIBUTION => 0)).sum) / (d.total_shares_offered : ℚ)) := by
  unfold Deal.calculate_current_share_value
  rw [hval]
  have hz : ¬ d.total_shares_offered = 0 := by omega
  simp only [hz, if_false]
  rfl

/-- Witness for C1 at the spec's worked example:
(1,000,000 + 50,000) / 10,000 = 105.00. -/
theorem C1_nav_with_valuation_witness :
    dealExample.calculate_current_share_value =
      quantize2 ((1000000 +
        ((dealExample.transactions.filter
            (fun t => 1 < t.transaction_date)).map
          (fun t => match t.transaction_type with
            | .INCOME => t.amount
            | .EXPENSE => -t.amount
            | .DISTRIBUTION => 0)).sum) / (10000 : ℚ)) ∧
      dealExample.calculate_current_share_value = 105 := by
  have h := C1_nav_with_valuation dealExample
    { valuation_date := 1, total_valuation := 1000000,
      valuation_method := "Annual Appraisal" }
    (by norm_num [dealExample]) rfl
  refine ⟨h, ?_⟩
  rw [h]
  norm_num [dealExample, quantize2, roundHalfEven]

/-- C5: a Deal offering zero shares has `price_per_share = 0`,
`calculate_current_share_value = 0` and `percentage_sold = 0`;
the guards make the divisions unreachable. -/
theorem C5_zero_shares_all_zero (d : Deal)
    (h : d.total_shares_offered = 0) :
    d.price_per_share = 0 ∧
      d.calculate_current_share_value = 0 ∧
      d.percentage_sold = 0 := by
  refine ⟨by simp [Deal.price_per_share, h], ?_,
    by simp [Deal.percentage_sold, h]⟩
  unfold Deal.calculate_current_share_value
  cases hv : latestValuation d.valuations with
  | none => simp [Deal.price_per_share, h]
  | some v => simp [h]

/-- Witness for C5 at a zero-share deal with a valuation, a transaction
and a holding on file. -/
theorem C5_zero_shares_all_zero_witness :
    dealZeroShares.total_shares_offered = 0 ∧
      (dealZeroShares.price_per_share = 0 ∧
        dealZeroShares.calculate_current_share_value = 0 ∧
        dealZeroShares.percentage_sold = 0) :=
  ⟨rfl, C5_zero_shares_all_zero dealZeroShares rfl⟩

/-- C8: a Deal with shares offered but no Valuation falls back to
`price_per_share`, which is the target raise over the shares offered,
rounded to 2 decimal places (the zero-target guard returns the same
value, since the quotient is then 0). -/
theorem C8_no_valuation_fallback (d : Deal)
    (hshares : 0 < d.total_shares_offered)
    (hval : d.valuations = []) :
    d.calculate_current_share_value = d.price_per_share ∧
      d.price_per_share =
        quantize2 (d.target_raise_amount / (d.total_shares_offered : ℚ)) := by
  constructor
  · unfold Deal.calculate_current_share_value
    rw [hval]
    rfl
  · unfold Deal.price_per_share
    by_cases ht : d.target_raise_amount = 0
    · rw [ht]
      norm_num [quantize2, roundHalfEven]
    · rw [if_pos ⟨by omega, ht⟩]

/-- Witness for C8: 1,000,000 over 10,000 shares, no valuation,
one transaction on file; the value is 100.00. -/
theorem C8_no_valuation_fallback_witness :
    (dealNoValuation.calculate_current_share_value =
        dealNoValuation.price_per_share ∧
      dealNoValuation.price_per_share =
        quantize2 (dealNoValuation.target_raise_amount /
          (dealNoValuation.total_shares_offered : ℚ))) ∧
      dealNoValuation.price_per_share = 100 := by
  have h := C8_no_valuation_fallback dealNoValuation
    (by norm_num [dealNoValuation]) rfl
  refine ⟨h, ?_⟩
  rw [h.2]
  norm_num [dealNoValuation, quantize2, roundHalfEven]

/-- C6 counterexample: on a quotient of exactly 0.125 the source rounds
`price_per_share` to 0.12 (ties to even), not to 0.13 as half-up
rounding would; and on the exact percentage 2.675 (107 of 4000 shares)
`percentage_sold` surfaces 2.67 — the double for 107/4000 falls below
the tie and the float rounding follows it down — not the half-up 2.68. -/
theorem C6_half_up_counterexample :
    dealTieQuotient.price_per_share ≠
        roundHalfUp2Spec (dealTieQuotient.target_raise_amount /
          (dealTieQuotient.total_shares_offered : ℚ)) ∧
      dealTieQuotient.price_per_share = 12/100 ∧
      roundHalfUp2Spec (dealTieQuotient.target_raise_amount /
          (dealTieQuotient.total_shares_offered : ℚ)) = 13/100 ∧
      dealPercent.percentage_sold = 267/100 ∧
      roundHalfUp2Spec ((dealPercent.total_shares_sold : ℚ) /
          (dealPercent.total_shares_offered : ℚ) * 100) = 268/100 ∧
      dealPercent.percentage_sold ≠
        roundHalfUp2Spec ((dealPercent.total_shares_sold : ℚ) /
          (dealPercent.total_shares_offered : ℚ) * 100) := by
  have l1 : Int.log 2 ((107 : ℚ)/4000) = -6 :=
    int_log_two_eq ((107 : ℚ)/4000) (-6) (by norm_num) (by norm_num)
      (by norm_num)
  have e1 : roundB64 ((107 : ℚ)/4000) =
      7710162562058289/288230376151711744 := by
    unfold roundB64
    rw [if_neg (by norm_num), if_pos (by norm_num), l1]
    norm_num [roundHalfEven]
  have l2 : Int.log 2 ((7710162562058289 : ℚ)/288230376151711744 * 100) = 1 :=
    int_log_two_eq ((7710162562058289 : ℚ)/288230376151711744 * 100) 1
      (by norm_num) (by norm_num) (by norm_num)
  have e2 : roundB64 ((7710162562058289 : ℚ)/288230376151711744 * 100) =
      3011782250804019/1125899906842624 := by
    unfold roundB64
    rw [if_neg (by norm_num), if_pos (by norm_num), l2]
    norm_num [roundHalfEven]
  have hcast : (dealPercent.total_shares_sold : ℚ) /
      (dealPercent.total_shares_offered : ℚ) = (107 : ℚ)/4000 := by
    norm_num [dealPercent, Deal.total_shares_sold]
  have epct : dealPercent.percentage_sold = 267/100 := by
    unfold Deal.percentage_sold
    rw [if_neg (by norm_num [dealPercent]), hcast, e1, e2]
    norm_num [quantize2, roundHalfEven]
  have hup : roundHalfUp2Spec ((dealPercent.total_shares_sold : ℚ) /
      (dealPercent.total_shares_offered : ℚ) * 100) = 268/100 := by
    rw [hcast]
    norm_num [roundHalfUp2Spec]
  refine ⟨?_, ?_, ?_, epct, hup, ?_⟩
  · norm_num [dealTieQuotient, Deal.price_per_share, quantize2,
      roundHalfEven, roundHalfUp2Spec]
  · norm_num [dealTieQuotient, Deal.price_per_share, quantize2,
      roundHalfEven]
  · norm_num [dealTieQuotient, roundHalfUp2Spec]
  · rw [epct, hup]
    norm_num

/-- C6 amended: each quotient the Decimal path surfaces
(`price_per_share` and the NAV per share) is a multiple of 0.01 nearest
the exact quotient, with ties broken to the even hundredth (half-even,
Python's default decimal rounding), not half-up; and `percentage_sold`
is the multiple of 0.01 nearest 100 × the double-precision value of
`float(sold)/float(offered)`, ties to even on that double — so on exact
decimal ties it follows the double's perturbation rather than rounding
up. -/
theorem C6_rounded_half_even (d : Deal)
    (hshares : 0 < d.total_shares_offered) :
    (d.target_raise_amount ≠ 0 →
      ∃ n : ℤ, d.price_per_share = (n : ℚ) / 100 ∧
        |d.target_raise_amount / (d.total_shares_offered : ℚ) * 100 - (n : ℚ)| ≤ 1/2 ∧
        (|d.target_raise_amount / (d.total_shares_offered : ℚ) * 100 - (n : ℚ)| = 1/2 →
          2 ∣ n)) ∧
    (∀ v, latestValuation d.valuations = some v →
      ∃ n : ℤ, d.calculate_current_share_value = (n : ℚ) / 100 ∧
        |(v.total_valuation + netCashFlowSince v.valuation_date d.transactions) /
            (d.total_shares_offered : ℚ) * 100 - (n : ℚ)| ≤ 1/2 ∧
        (|(v.total_valuation + netCashFlowSince v.valuation_date d.transactions) /
            (d.total_shares_offered : ℚ) * 100 - (n : ℚ)| = 1/2 → 2 ∣ n)) ∧
    (∃ n : ℤ, d.percentage_sold = (n : ℚ) / 100 ∧
      |roundB64 (roundB64 ((d.total_shares_sold : ℚ) /
          (d.total_shares_offered : ℚ)) * 100) * 100 - (n : ℚ)| ≤ 1/2 ∧
      (|roundB64 (roundB64 ((d.total_shares_sold : ℚ) /
          (d.total_shares_offered : ℚ)) * 100) * 100 - (n : ℚ)| = 1/2 →
        2 ∣ n)) := by
  refine ⟨?_, ?_, ?_⟩
  · intro ht
    refine ⟨roundHalfEven (d.target_raise_amount / (d.total_shares_offered : ℚ) * 100),
      ?_, (roundHalfEven_nearest _).1, (roundHalfEven_nearest _).2⟩
    unfold Deal.price_per_share quantize2
    rw [if_pos ⟨by omega, ht⟩]
  · intro v hval
    refine ⟨roundHalfEven ((v.total_valuation +
        netCashFlowSince v.valuation_date d.transactions) /
        (d.total_shares_offered : ℚ) * 100),
      ?_, (roundHalfEven_nearest _).1, (roundHalfEven_nearest _).2⟩
    unfold Deal.calculate_current_share_value quantize2
    rw [hval]
    have hz : ¬ d.total_shares_offered = 0 := by omega
    simp only [hz, if_false]
  · refine ⟨roundHalfEven (roundB64 (roundB64 ((d.total_shares_sold : ℚ) /
        (d.total_shares_offered : ℚ)) * 100) * 100),
      ?_, (roundHalfEven_nearest _).1, (roundHalfEven_nearest _).2⟩
    unfold Deal.percentage_sold quantize2
    rw [if_neg (by omega)]

/-- Witness for C6 at `dealTieQuotientValued`: every hypothesis
discharged (10 shares, nonzero target, one valuation present). -/
theorem C6_rounded_half_even_witness :
    (∃ n : ℤ, dealTieQuotientValued.price_per_share = (n : ℚ) / 100 ∧
        |dealTieQuotientValued.target_raise_amount /
            (dealTieQuotientValued.total_shares_offered : ℚ) * 100 - (n : ℚ)| ≤ 1/2 ∧
        (|dealTieQuotientValued.target_raise_amount /
            (dealTieQuotientValued.total_shares_offered : ℚ) * 100 - (n : ℚ)| = 1/2 →
          2 ∣ n)) ∧
    (∃ n : ℤ, dealTieQuotientValued.calculate_current_share_value = (n : ℚ) / 100 ∧
        |((5/4 : ℚ) + netCashFlowSince 1 dealTieQuotientValued.transactions) /
            (dealTieQuotientValued.total_shares_offered : ℚ) * 100 - (n : ℚ)| ≤ 1/2 ∧
        (|((5/4 : ℚ) + netCashFlowSince 1 dealTieQuotientValued.transactions) /
            (dealTieQuotientValued.total_shares_offered : ℚ) * 100 - (n : ℚ)| = 1/2 →
          2 ∣ n)) ∧
    (∃ n : ℤ, dealTieQuotientValued.percentage_sold = (n : ℚ) / 100 ∧
      |roundB64 (roundB64 ((dealTieQuotientValued.total_shares_sold : ℚ) /
          (dealTieQuotientValued.total_shares_offered : ℚ)) * 100) * 100 -
          (n : ℚ)| ≤ 1/2 ∧
      (|roundB64 (roundB64 ((dealTieQuotientValued.total_shares_sold : ℚ) /
          (dealTieQuotientValued.total_shares_offered : ℚ)) * 100) * 100 -
          (n : ℚ)| = 1/2 → 2 ∣ n)) := by
  have h := C6_rounded_half_even dealTieQuotientValued
    (by norm_num [dealTieQuotientValued])
  exact ⟨h.1 (by norm_num [dealTieQuotientValued]),
    h.2.1 { valuation_date := 1, total_valuation := 5/4,
            valuation_method := "Appraisal" } rfl,
    h.2.2⟩

/-- C2: after `finalize_and_create_transaction`, the sale's
`total_amount` is the sum of `quantity × price_at_sale` over its
SaleItems; exactly one new Transaction is appended, with type INCOME,
amount equal to that total, `transaction_date = created_at` (the sale's
creation time, not a clock read at finalize), and a description naming
the sale id and the cashier; the SaleItem table is untouched; and the
persisted sale row carries the new total. -/
theorem C2_finalize_total_and_transaction (st : Store) (s : Sale) :
    (finalize_and_create_transaction st s).2.total_amount =
      ((st.itemsOf s.id).map
        (fun si => (si.quantity : ℚ) * si.price_at_sale)).sum ∧
    (finalize_and_create_transaction st s).1.transactions =
      st.transactions ++
        [{ deal := s.deal
           transaction_date := s.created_at
           transaction_type := .INCOME
           amount := (finalize_and_create_transaction st s).2.total_amount
           description :=
             "POS Sale #" ++ toString s.id ++ " (Cashier: " ++ s.cashier ++ ")" }] ∧
    (finalize_and_create_transaction st s).1.saleItems = st.saleItems ∧
    (st.sales.filter (fun x => x.id == s.id) = [s] →
      (finalize_and_create_transaction st s).1.sales.filter
          (fun x => x.id == s.id) =
        [{ s with total_amount :=
            (finalize_and_create_transaction st s).2.total_amount }]) := by
  refine ⟨rfl, rfl, rfl, ?_⟩
  intro hone
  have hf : ∀ x : Sale,
      ((if x.id == s.id then
          { s with total_amount :=
              ((st.itemsOf s.id).map SaleItem.total_price).sum }
        else x).id == s.id) = (x.id == s.id) := by
    intro x
    cases hx : (x.id == s.id) <;> simp [hx]
  show (st.sales.map _).filter _ = _
  rw [filter_map_of_pred_inv _ _ hf, hone]
  simp only [List.map_cons, List.map_nil, beq_self_eq_true, if_true]
  rfl

/-- Witness for C2 at the spec's example store (150.00 × 2 plus
75.50 × 1): the total is 375.50 and the sale row is updated. -/
theorem C2_finalize_total_and_transaction_witness :
    (finalize_and_create_transaction storeExample saleExample).2.total_amount =
        751/2 ∧
      (finalize_and_create_transaction storeExample saleExample).1.sales.filter
          (fun x => x.id == saleExample.id) =
        [{ saleExample with total_amount :=
            (finalize_and_create_transaction storeExample
              saleExample).2.total_amount }] := by
  have h := C2_finalize_total_and_transaction storeExample saleExample
  refine ⟨?_, h.2.2.2 rfl⟩
  rw [h.1]
  norm_num [storeExample, saleExample, Store.itemsOf]

/-- C7: checking out an empty cart is rejected (the error branch carries
the store unchanged: no Sale, SaleItem or Transaction is written). -/
theorem C7_empty_cart_rejected (st : Store) (dealId : ℕ)
    (cashier customer : String) (now freshId : ℕ) :
    checkout st [] dealId cashier customer now freshId = .emptyCart st :=
  rfl

/-- C10: `finalize_and_create_transaction` has no re-invocation guard:
running it twice on the same sale (items unchanged) appends the same
INCOME transaction twice, so the ledger holds two equal-amount
transactions referencing that one sale. -/
theorem C10_finalize_not_idempotent (st : Store) (s : Sale) :
    ∃ tx : Transaction,
      (finalize_and_create_transaction
          (finalize_and_create_transaction st s).1
          (finalize_and_create_transaction st s).2).1.transactions =
        st.transactions ++ [tx, tx] ∧
      tx.transaction_type = .INCOME ∧
      tx.amount = ((st.itemsOf s.id).map SaleItem.total_price).sum ∧
      tx.description =
        "POS Sale #" ++ toString s.id ++ " (Cashier: " ++ s.cashier ++ ")" := by
  refine ⟨{ deal := s.deal
            transaction_date := s.created_at
            transaction_type := .INCOME
            amount := ((st.itemsOf s.id).map SaleItem.total_price).sum
            description :=
              "POS Sale #" ++ toString s.id ++ " (Cashier: " ++ s.cashier ++ ")" },
    ?_, rfl, rfl, rfl⟩
  show (st.transactions ++ _) ++ _ = _
  rw [List.append_assoc]
  rfl

/-- C3: the checkout sequence is not atomic.  With an empty variant
table and a one-line cart, the variant lookup fails after the Sale row
was created, and the failure leaves that orphan Sale persisted: the
store after the aborted checkout differs from the store before it. -/
theorem C3_failed_checkout_keeps_partial_sale :
    checkout storeEmpty cartDangling 7 "cash1" "Walk-in" 3 1 =
      .variantNotFound
        { sales := [saleExample], saleItems := [], transactions := [],
          variants := [] } 5 ∧
      ({ sales := [saleExample], saleItems := [], transactions := [],
         variants := [] } : Store) ≠ storeEmpty := by
  refine ⟨rfl, ?_⟩
  simp [storeEmpty, Store.mk.injEq]

/-- Subscribing with no existing row for the key appends one new row
priced at the offering price. -/
theorem subscribe_of_fresh (hs : List HoldingRow) (inv dealId : ℕ)
    (d : Deal) (s : ℕ) (hnil : holdingsFor hs inv dealId = []) :
    subscribe hs inv dealId d s =
      hs ++ [{ investor := inv, deal := dealId, shares_held := s,
               total_cost_basis := (s : ℚ) * d.price_per_share }] := by
  have hany : hs.any (fun h => h.investor == inv && h.deal == dealId) = false := by
    rw [List.any_eq_false]
    exact List.filter_eq_nil_iff.mp hnil
  unfold subscribe
  simp [hany]

/-- Subscribing with exactly one existing row for the key updates that
row in place, adding the shares and the offering-priced delta. -/
theorem subscribe_of_existing (hs : List HoldingRow) (inv dealId : ℕ)
    (d : Deal) (s : ℕ) (h0 : HoldingRow)
    (hone : holdingsFor hs inv dealId = [h0]) :
    holdingsFor (subscribe hs inv dealId d s) inv dealId =
      [{ h0 with shares_held := h0.shares_held + s,
                 total_cost_basis :=
                   h0.total_cost_basis + (s : ℚ) * d.price_per_share }] ∧
    (subscribe hs inv dealId d s).length = hs.length := by
  have hone' :
      hs.filter (fun h => h.investor == inv && h.deal == dealId) = [h0] := hone
  have hmem : h0 ∈ hs.filter (fun h => h.investor == inv && h.deal == dealId) := by
    simp [hone']
  have hmem2 := List.mem_filter.mp hmem
  have hp : (h0.investor == inv && h0.deal == dealId) = true := hmem2.2
  have hany : hs.any (fun h => h.investor == inv && h.deal == dealId) = true :=
    List.any_eq_true.mpr ⟨h0, hmem2.1, hp⟩
  have hf : ∀ x : HoldingRow,
      ((fun h : HoldingRow => h.investor == inv && h.deal == dealId)
        ((fun h : HoldingRow =>
          if h.investor == inv && h.deal == dealId then
            { h with shares_held := h.shares_held + s,
                     total_cost_basis :=
                       h.total_cost_basis + (s : ℚ) * d.price_per_share }
          else h) x)) =
      ((fun h : HoldingRow => h.investor == inv && h.deal == dealId) x) := by
    intro x
    cases hx : (x.investor == inv && x.deal == dealId) <;> simp [hx]
  constructor
  · unfold holdingsFor subscribe
    simp only [hany, if_true]
    rw [filter_map_of_pred_inv _ _ hf, hone']
    simp only [List.map_cons, List.map_nil, hp, if_true]
  · unfold subscribe
    simp only [hany, if_true, List.length_map]

/-- C4: the subscription flow is an upsert on `(investor, deal)` priced
at the offering price: with no row it appends one; with one row it adds
the shares and the delta to it, creating no extra row; and from a fresh
key, two sequential 100-share subscriptions leave exactly one row with
200 shares and a cost basis of 2 × (100 × price_per_share). -/
theorem C4_subscribe_upsert (hs : List HoldingRow) (inv dealId : ℕ)
    (d : Deal) (s : ℕ) :
    (holdingsFor hs inv dealId = [] →
      subscribe hs inv dealId d s =
        hs ++ [{ investor := inv, deal := dealId, shares_held := s,
                 total_cost_basis := (s : ℚ) * d.price_per_share }]) ∧
    (∀ h0, holdingsFor hs inv dealId = [h0] →
      holdingsFor (subscribe hs inv dealId d s) inv dealId =
        [{ h0 with shares_held := h0.shares_held + s,
                   total_cost_basis :=
                     h0.total_cost_basis + (s : ℚ) * d.price_per_share }] ∧
      (subscribe hs inv dealId d s).length = hs.length) ∧
    (holdingsFor hs inv dealId = [] →
      holdingsFor
          (subscribe (subscribe hs inv dealId d 100) inv dealId d 100)
          inv dealId =
        [{ investor := inv, deal := dealId, shares_held := 200,
           total_cost_basis := 2 * (100 * d.price_per_share) }]) := by
  refine ⟨subscribe_of_fresh hs inv dealId d s, ?_, ?_⟩
  · intro h0 hone
    exact subscribe_of_existing hs inv dealId d s h0 hone
  · intro hnil
    have h1 := subscribe_of_fresh hs inv dealId d 100 hnil
    have hone : holdingsFor (subscribe hs inv dealId d 100) inv dealId =
        [{ investor := inv, deal := dealId, shares_held := 100,
           total_cost_basis := (100 : ℚ) * d.price_per_share }] := by
      rw [h1]
      unfold holdingsFor at hnil ⊢
      rw [List.filter_append, hnil]
      simp
    have h2 := (subscribe_of_existing (subscribe hs inv dealId d 100)
      inv dealId d 100 _ hone).1
    rw [h2]
    simp only [List.cons.injEq, and_true, HoldingRow.mk.injEq, true_and]
    norm_num
    ring

/-- Witness for C4: from an empty table, two 100-share subscriptions to
a 50-per-share deal leave one row holding 200 shares at basis 10,000. -/
theorem C4_subscribe_upsert_witness :
    holdingsFor (subscribe (subscribe [] 1 2 dealFifty 100) 1 2 dealFifty 100) 1 2 =
      [{ investor := 1, deal := 2, shares_held := 200,
         total_cost_basis := 2 * (100 * dealFifty.price_per_share) }] ∧
    2 * (100 * dealFifty.price_per_share) = 10000 := by
  refine ⟨(C4_subscribe_upsert [] 1 2 dealFifty 100).2.2 rfl, ?_⟩
  norm_num [dealFifty, Deal.price_per_share, quantize2, roundHalfEven]

/-- C9 counterexample: adding a variant, raising its catalog price from
10 to 20, then adding it again leaves the cart entry priced at the
first snapshot (10), not at the catalog price current at the second add
(20) — the increment branch does not re-read the price. -/
theorem C9_price_kept_on_increment :
    cartLookup (addToCart (addToCart [] variantBefore) variantAfter) 1 =
      some { name := "Polish (Regular)", price := 10, quantity := 2 } ∧
    variantAfter.price = 20 ∧ (10 : ℚ) ≠ 20 := by
  refine ⟨rfl, rfl, by norm_num⟩

/-- C9 amended: `add` of a variant absent from the cart appends an
entry with quantity 1 and the variant's current price and display name;
`add` of a present variant only increments its quantity, keeping the
entry (name and price) snapshotted at the first add, and leaves every
other key untouched. -/
theorem C9_add_to_cart_upsert (cart : Cart) (v : Variant) :
    (cartLookup cart v.id = none →
      addToCart cart v =
        cart ++ [(v.id, { name := v.itemName ++ " (" ++ v.name ++ ")",
                          price := v.price, quantity := 1 })]) ∧
    (∀ e, cartLookup cart v.id = some e →
      cartLookup (addToCart cart v) v.id =
        some { e with quantity := e.quantity + 1 } ∧
      (∀ j, j ≠ v.id →
        cartLookup (addToCart cart v) j = cartLookup cart j)) := by
  have hf : ∀ x : ℕ × CartEntry,
      ((fun q : ℕ × CartEntry => q.1 == v.id)
        ((fun q : ℕ × CartEntry =>
          if q.1 == v.id then (q.1, { q.2 with quantity := q.2.quantity + 1 })
          else q) x)) =
      ((fun q : ℕ × CartEntry => q.1 == v.id) x) := by
    intro x
    cases hx : (x.1 == v.id) <;> simp [hx]
  constructor
  · intro hnone
    have hfind : cart.find? (fun q => q.1 == v.id) = none := by
      cases hx : cart.find? (fun q => q.1 == v.id) with
      | none => rfl
      | some q => simp [cartLookup, hx] at hnone
    have hany : cart.any (fun q => q.1 == v.id) = false := by
      rw [List.any_eq_false]
      exact List.find?_eq_none.mp hfind
    unfold addToCart
    simp [hany]
  · intro e he
    obtain ⟨q, hq, hq2⟩ : ∃ q, cart.find? (fun q => q.1 == v.id) = some q ∧
        q.2 = e := by
      cases hx : cart.find? (fun q => q.1 == v.id) with
      | none => simp [cartLookup, hx] at he
      | some q => exact ⟨q, rfl, by simpa [cartLookup, hx] using he⟩
    have hpq0 := List.find?_some hq
    have hpq : (q.1 == v.id) = true := hpq0
    have hany : cart.any (fun q => q.1 == v.id) = true :=
      List.any_eq_true.mpr ⟨q, List.mem_of_find?_eq_some hq, hpq⟩
    constructor
    · unfold cartLookup addToCart
      simp only [hany, if_true]
      rw [find_map_of_pred_inv _ _ hf, hq]
      have hqv : q.1 = v.id := by simpa using hpq
      simp [hqv, hq2]
    · intro j hj
      unfold cartLookup addToCart
      simp only [hany, if_true]
      have hfj : ∀ x : ℕ × CartEntry,
          ((fun q : ℕ × CartEntry => q.1 == j)
            ((fun q : ℕ × CartEntry =>
              if q.1 == v.id then (q.1, { q.2 with quantity := q.2.quantity + 1 })
              else q) x)) =
          ((fun q : ℕ × CartEntry => q.1 == j) x) := by
        intro x
        cases hx : (x.1 == v.id) <;> simp [hx]
      rw [find_map_of_pred_inv _ _ hfj]
      cases hx : cart.find? (fun q => q.1 == j) with
      | none => rfl
      | some q' =>
          have hq'j : q'.1 = j := by
            have := List.find?_some hx
            simpa using this
          have hq'v : ¬ (q'.1 = v.id) := by
            rw [hq'j]
            exact hj
          simp [hq'v]

/-- Witness for C9: both branches exercised on a concrete cart — a
fresh add inserts quantity 1 at price 10, a repeat add reaches
quantity 2 keeping that entry. -/
theorem C9_add_to_cart_upsert_witness :
    (addToCart [] variantBefore =
      [(variantBefore.id,
        { name := variantBefore.itemName ++ " (" ++ variantBefore.name ++ ")",
          price := variantBefore.price, quantity := 1 })]) ∧
    cartLookup (addToCart (addToCart [] variantBefore) variantBefore)
        variantBefore.id =
      some { name := "Polish (Regular)", price := 10, quantity := 2 } := by
  have h1 := C9_add_to_cart_upsert ([] : Cart) variantBefore
  have h2 := C9_add_to_cart_upsert (addToCart [] variantBefore) variantBefore
  refine ⟨h1.1 rfl, ?_⟩
  exact (h2.2 { name := "Polish (Regular)", price := 10, quantity := 1 } rfl).1

end FractionalSuite
